import Mathlib

/-!
Verification development for `captoolkit/ibe/slp2ibe.py`.

The script converts a gridded sea-level-pressure time series `P(t, y, x)`
into an inverse-barometer-effect correction via

    P_ref = np.nanmean(P, axis=0)
    h_ibe = (-1 / (rho * g)) * (P - P_ref[np.newaxis, :, :])

and `main` carries the coordinate arrays through unchanged, deriving the
output filename with `infile.replace("SLP_", "IBE_").replace(".nc", ".h5")`.

We embed the numerics over `Option ℚ`, where `none` models the IEEE NaN
sentinel used by numpy for missing data (exact rationals stand in for
floats: the claims under check are about exact algebraic identities and
NaN propagation, not rounding).  Two views of the array code are given:

* a typed view `slp_to_ibe` on `Fin`-indexed 3-D grids, the shape declared
  by the source docstring (`P(t,y,x)`), for the pointwise and algebraic
  claims; and
* a shape-generic view `slp_to_ibe_nd` on `NDArray` (an explicit shape
  list plus an index-to-cell map, mirroring numpy's shape/buffer pair),
  which also models the error behaviour of `np.nanmean(·, axis=0)`, of the
  indexing expression `P_ref[np.newaxis, :, :]`, and of broadcasting, so
  that the dimension-validation claims can be settled.
-/

set_option linter.unusedVariables false

namespace Slp2ibe

/-- A cell of a numpy float array: `none` models the NaN missing-value
sentinel, `some q` a finite value. -/
abbrev Cell := Option ℚ

/-- NaN-propagating subtraction: `a - b` is NaN whenever either operand is. -/
def nsub : Cell → Cell → Cell
  | some a, some b => some (a - b)
  | _, _ => none

/-- NaN-propagating multiplication by a finite scalar `c`. -/
def nscale (c : ℚ) : Cell → Cell
  | some a => some (c * a)
  | none => none

/-- Mean of a list of cells in the style of `np.nanmean`: NaN entries are
dropped, the remaining values are summed and divided by their count; an
all-NaN list yields NaN (numpy emits a RuntimeWarning there, not an
exception). -/
def nanmeanVals (vs : List Cell) : Cell :=
  let defined := vs.filterMap id
  if defined.length = 0 then none else some (defined.sum / defined.length)

/-- A 3-D array `P(t, y, x)`, the shape the source docstring declares for
the pressure field. -/
def Grid3 (T Y X : Nat) : Type := Fin T → Fin Y → Fin X → Cell

/-- A 2-D array `R(y, x)`, the shape of the reference pressure. -/
def Grid2 (Y X : Nat) : Type := Fin Y → Fin X → Cell

/-- Embedding of `np.nanmean(P, axis=0)` on the typed 3-D view: the
per-location temporal mean, NaN entries excluded. -/
def nanmean0 {T Y X : Nat} (P : Grid3 T Y X) : Grid2 Y X := fun y x =>
  nanmeanVals ((List.finRange T).map (fun t => P t y x))

set_option linter.unusedVariables false in
/-- Embedding of `slp_to_ibe(P, rho=1028.0, g=9.80665, P_ref=None)`
(src/captoolkit/ibe/slp2ibe.py, lines 65-82).  The body first rebinds
`P_ref = np.nanmean(P, axis=0)` — shadowing the `P_ref` parameter exactly
as the Python assignment does, so the parameter is never read (it is kept
in the signature, at its source position, with a polymorphic type standing
for Python's dynamic typing) — and then returns
`(-1/(rho*g)) * (P - P_ref[np.newaxis, :, :])`. -/
def slp_to_ibe {T Y X : Nat} {α : Type} (P : Grid3 T Y X) (rho g : ℚ)
    (P_ref : Option α) : Grid3 T Y X :=
  let P_ref := nanmean0 P
  fun t y x => nscale (-1 / (rho * g)) (nsub (P t y x) (P_ref y x))

/-- Default value of the `rho` parameter in the source (`1028.0`). -/
def rhoDefault : ℚ := 1028

/-- Default value of the `g` parameter in the source (`9.80665`). -/
def gDefault : ℚ := 980665 / 100000

/-- Elementwise addition of a finite constant, numpy's `P + c`
(NaN + c is NaN). -/
def addScalar {T Y X : Nat} (c : ℚ) (P : Grid3 T Y X) : Grid3 T Y X :=
  fun t y x => (P t y x).map (fun v => v + c)

/-- A numpy ndarray as its shape/buffer pair: an explicit shape list and a
map from multi-indices to cells (only indices within the shape are ever
consulted).  This shape-generic view lets the dimension behaviour of the
source be stated. -/
structure NDArray where
  shape : List Nat
  data : List Nat → Cell

/-- Broadcast compatibility of one axis pair (numpy: equal extents, or
either extent is 1). -/
def bcDim (a b : Nat) : Option Nat :=
  if a = b then some a else if a = 1 then some b else if b = 1 then some a else none

/-- Broadcast combination of two shapes already aligned at their trailing
axes (inputs are the reversed shapes; a missing leading axis behaves as
extent 1). -/
def bcZip : List Nat → List Nat → Option (List Nat)
  | [], t => some t
  | s, [] => some s
  | a :: s, b :: t => do
      let d ← bcDim a b
      let rest ← bcZip s t
      pure (d :: rest)

/-- Numpy broadcasting of two shapes: align the trailing axes, pad the
shorter shape with leading 1-extents. -/
def broadcastShapes (s t : List Nat) : Option (List Nat) :=
  (bcZip s.reverse t.reverse).map List.reverse

/-- Reading an operand cell during a broadcast operation of the given
output rank: drop the index positions of the padded leading axes and
pin the index to 0 on axes of extent 1. -/
def bcRead (A : NDArray) (rank : Nat) (p : List Nat) : Cell :=
  A.data (List.zipWith (fun n i => if n = 1 then 0 else i) A.shape
    (p.drop (rank - A.shape.length)))

/-- Embedding of `np.nanmean(A, axis=0)`: a 0-d array has no axis 0
(numpy raises AxisError); otherwise the leading axis is reduced by the
not-a-number-excluding mean. -/
def nanmean0_nd (A : NDArray) : Except String NDArray :=
  match A.shape with
  | [] => .error "numpy.AxisError: axis 0 is out of bounds for array of dimension 0"
  | n :: rest =>
    .ok ⟨rest, fun p => nanmeanVals ((List.range n).map (fun i => A.data (i :: p)))⟩

/-- Embedding of the indexing expression `R[np.newaxis, :, :]`: it
prepends a 1-extent axis and requires at least the two sliced axes to
exist, raising IndexError otherwise (numpy: too many indices for array). -/
def newaxisSliceSlice (A : NDArray) : Except String NDArray :=
  if 2 ≤ A.shape.length then .ok ⟨1 :: A.shape, fun p => A.data p.tail⟩
  else .error "IndexError: too many indices for array"

/-- Elementwise broadcast subtraction `A - B` with not-a-number
propagation; incompatible shapes raise ValueError. -/
def subBroadcast (A B : NDArray) : Except String NDArray :=
  match broadcastShapes A.shape B.shape with
  | none => .error "ValueError: operands could not be broadcast together"
  | some sh => .ok ⟨sh, fun p => nsub (bcRead A sh.length p) (bcRead B sh.length p)⟩

/-- Elementwise multiplication of an array by a finite scalar. -/
def scaleND (c : ℚ) (A : NDArray) : NDArray :=
  ⟨A.shape, fun p => nscale c (A.data p)⟩

set_option linter.unusedVariables false in
/-- Shape-generic embedding of `slp_to_ibe` (src/captoolkit/ibe/slp2ibe.py,
lines 65-82), following the evaluation order of the source line
`h_ibe = (-1 / (rho * g)) * (P - P_ref[np.newaxis, :, :])`: the temporal
mean is computed first (previous line), then the scalar `-1/(rho*g)`
(Python evaluates the left operand of `*` first, raising ZeroDivisionError
if `rho*g` is zero), then the reshape of the reference, the broadcast
subtraction, and the scaling.  As in the typed view, the `P_ref` parameter
is shadowed and never read. -/
def slp_to_ibe_nd {α : Type} (P : NDArray) (rho g : ℚ) (P_ref : Option α) :
    Except String NDArray := do
  let P_ref ← nanmean0_nd P
  let coeff ← if rho * g = 0
    then Except.error "ZeroDivisionError: float division by zero"
    else Except.ok (-1 / (rho * g))
  let prefE ← newaxisSliceSlice P_ref
  let diff ← subBroadcast P prefE
  pure (scaleND coeff diff)

/-- Whether an `Except` computation succeeded. -/
def isOkB {ε α : Type} : Except ε α → Bool
  | .ok _ => true
  | .error _ => false

/-- Embedding of Python `str.replace` with an empty pattern: `new` is
inserted before every character and once at the end. -/
def strReplaceEmpty (new : List Char) : List Char → List Char
  | [] => new
  | c :: rest => new ++ c :: strReplaceEmpty new rest

/-- Fuel-driven worker for `strReplace`: scan left to right; at a match of
the (nonempty) pattern, emit `new` and skip the matched characters,
otherwise keep one character and continue.  Any `fuel ≥ s.length` gives
the total left-to-right non-overlapping replacement. -/
def strReplaceGo (old new : List Char) : Nat → List Char → List Char
  | 0, s => s
  | Nat.succ fuel, s =>
    match s with
    | [] => []
    | c :: rest =>
      if old.isPrefixOf (c :: rest)
      then new ++ strReplaceGo old new fuel ((c :: rest).drop old.length)
      else c :: strReplaceGo old new fuel rest

/-- Embedding of Python `str.replace(old, new)`: every occurrence of
`old`, scanned left to right without overlap, is replaced by `new`. -/
def strReplace (s old new : List Char) : List Char :=
  match old with
  | [] => strReplaceEmpty new s
  | _ :: _ => strReplaceGo old new s.length s

/-- The output-filename derivation of `main` (line 169 of the source):
`outfile = infile.replace("SLP_", "IBE_").replace(".nc", ".h5")`. -/
def outfileOf (infile : List Char) : List Char :=
  strReplace (strReplace infile "SLP_".toList "IBE_".toList) ".nc".toList ".h5".toList

/-- Modelled from the spec, for comparison with `outfileOf`: the filename
rule as claim C8 words it — replace the `SLP_` token only as a leading
prefix with `IBE_`, replace the `.nc` extension only at the end with
`.h5`, and leave the rest of the name unchanged. -/
def specOutfileOf (s : List Char) : List Char :=
  let s1 := if "SLP_".toList.isPrefixOf s then "IBE_".toList ++ s.drop 4 else s
  if ".nc".toList.isSuffixOf s1 then s1.take (s1.length - 3) ++ ".h5".toList else s1

/-- The input data `main` reads from the NetCDF file (lines 91-96): the
input path and the four variables — the three 1-D coordinate arrays and
the 3-D pressure field. -/
structure SLPDataset where
  infile : List Char
  lon : List ℚ
  lat : List ℚ
  time : List ℚ
  msl : NDArray

/-- The output `main` writes to the HDF5 file (lines 169-176): the derived
output path and the four datasets `lon`, `lat`, `time`, `ibe`. -/
structure IBEProduct where
  outfile : List Char
  lon : List ℚ
  lat : List ℚ
  time : List ℚ
  ibe : NDArray

/-- Data-flow model of `main` (lines 85-180): convert the pressure field
with `slp_to_ibe` at the default `rho` and `g`, derive the output name
from the input name, and carry the three coordinate arrays through
untouched.  The progress prints, the disabled `if 0:` diagnostic block and
the metadata `getattr` reads do not affect the written data and are not
modelled; a conversion failure aborts the run before any output exists. -/
def mainModel (ds : SLPDataset) : Except String IBEProduct := do
  let ibe ← slp_to_ibe_nd ds.msl rhoDefault gDefault (none : Option Unit)
  pure { outfile := outfileOf ds.infile, lon := ds.lon, lat := ds.lat,
         time := ds.time, ibe := ibe }

lemma nsub_some_some (a b : ℚ) : nsub (some a) (some b) = some (a - b) := rfl

lemma nsub_none_left (b : Cell) : nsub none b = none := rfl

lemma nsub_none_right (a : Cell) : nsub a none = none := by
  cases a <;> rfl

lemma nscale_none (c : ℚ) : nscale c none = none := rfl

lemma nscale_some (c a : ℚ) : nscale c (some a) = some (c * a) := rfl

/-- The temporal-mean column list of `nanmean0`, rewritten as a direct
`filterMap` over the time indices. -/
lemma nanmean0_eq {T Y X : Nat} (P : Grid3 T Y X) (y : Fin Y) (x : Fin X) :
    nanmean0 P y x =
      (if ((List.finRange T).filterMap (fun s => P s y x)).length = 0 then none
       else some (((List.finRange T).filterMap (fun s => P s y x)).sum /
                  ((List.finRange T).filterMap (fun s => P s y x)).length)) := by
  unfold nanmean0 nanmeanVals
  rw [List.filterMap_map]
  rfl

/-- Claim C1: for positive `rho` and `g`, every defined entry of the output
equals `(-1/(rho*g)) * (P[t,y,x] - P_ref[y,x])` where `P_ref[y,x]` is the
temporal mean of the column at `(y,x)` with not-a-number entries excluded
(sum of the defined entries divided by their count). -/
theorem slp_to_ibe_pointwise {T Y X : Nat} (P : Grid3 T Y X) (rho g : ℚ)
    (hrho : 0 < rho) (hg : 0 < g) (t : Fin T) (y : Fin Y) (x : Fin X) (p : ℚ)
    (hp : P t y x = some p) :
    slp_to_ibe P rho g (none : Option Unit) t y x =
      some ((-1 / (rho * g)) *
        (p - ((List.finRange T).filterMap (fun s => P s y x)).sum /
             ((List.finRange T).filterMap (fun s => P s y x)).length)) := by
  have hmem : p ∈ (List.finRange T).filterMap (fun s => P s y x) :=
    List.mem_filterMap.mpr ⟨t, List.mem_finRange t, hp⟩
  have hne : ((List.finRange T).filterMap (fun s => P s y x)).length ≠ 0 := by
    intro h0
    rw [List.length_eq_zero] at h0
    rw [h0] at hmem
    exact absurd hmem (List.not_mem_nil p)
  show nscale (-1 / (rho * g)) (nsub (P t y x) (nanmean0 P y x)) = _
  rw [nanmean0_eq, if_neg hne, hp, nsub_some_some, nscale_some]

/-- Witness for `slp_to_ibe_pointwise` at a concrete 2×1×1 input. -/
theorem slp_to_ibe_pointwise_witness :
    slp_to_ibe (T := 2) (Y := 1) (X := 1)
        (fun t _ _ => if t.val = 0 then some 3 else some 5)
        (1028 : ℚ) (980665 / 100000) (none : Option Unit) 0 0 0 =
      some ((-1 / ((1028 : ℚ) * (980665 / 100000))) *
        (3 - ((List.finRange 2).filterMap
                (fun s => if s.val = 0 then some (3 : ℚ) else some 5)).sum /
             ((List.finRange 2).filterMap
                (fun s => if s.val = 0 then some (3 : ℚ) else some 5)).length)) :=
  slp_to_ibe_pointwise (T := 2) (Y := 1) (X := 1)
    (fun t _ _ => if t.val = 0 then some 3 else some 5)
    1028 (980665 / 100000) (by norm_num) (by norm_num) 0 0 0 3 rfl

/-- Claim C2: not-a-number propagates — a missing input cell yields a
missing output cell, and an all-missing column yields an all-missing
output column (the underlying numpy operations are total on missing data,
so no exception arises). -/
theorem slp_to_ibe_nan_propagation {T Y X : Nat} {α : Type} (P : Grid3 T Y X)
    (rho g : ℚ) (r : Option α) (y : Fin Y) (x : Fin X) :
    (∀ t : Fin T, P t y x = none → slp_to_ibe P rho g r t y x = none) ∧
    ((∀ t : Fin T, P t y x = none) → ∀ t : Fin T, slp_to_ibe P rho g r t y x = none) := by
  have h1 : ∀ t : Fin T, P t y x = none → slp_to_ibe P rho g r t y x = none := by
    intro t ht
    show nscale (-1 / (rho * g)) (nsub (P t y x) (nanmean0 P y x)) = none
    rw [ht, nsub_none_left, nscale_none]
  exact ⟨h1, fun hall t => h1 t (hall t)⟩

/-- Witness for `slp_to_ibe_nan_propagation` on an all-missing 1×1×1 input. -/
theorem slp_to_ibe_nan_propagation_witness :
    slp_to_ibe (T := 1) (Y := 1) (X := 1) (fun _ _ _ => (none : Cell))
      (1028 : ℚ) (980665 / 100000) (none : Option Unit) 0 0 0 = none :=
  (slp_to_ibe_nan_propagation (T := 1) (Y := 1) (X := 1)
    (fun _ _ _ => none) 1028 (980665 / 100000) none 0 0).1 0 rfl

/-- Claim C5: the `P_ref` parameter is dead — it is immediately shadowed by
the recomputed temporal mean, so any supplied value (constant reference
pressure included) yields exactly the result of the default `P_ref=None`
call. -/
theorem slp_to_ibe_ref_arg_unused {T Y X : Nat} {α : Type} (P : Grid3 T Y X)
    (rho g : ℚ) (r : Option α) :
    slp_to_ibe P rho g r = slp_to_ibe P rho g (none : Option α) := rfl

/-- Claim C6: the scaling law.  Elementwise, the result at parameters
`(rho, g)` is the result at `(rho2, g2)` multiplied by `(rho2*g2)/(rho*g)`
(with not-a-number cells staying not-a-number on both sides). -/
theorem slp_to_ibe_scaling {T Y X : Nat} (P : Grid3 T Y X) (rho g rho2 g2 : ℚ)
    (h1 : 0 < rho) (h2 : 0 < g) (h3 : 0 < rho2) (h4 : 0 < g2)
    (t : Fin T) (y : Fin Y) (x : Fin X) :
    slp_to_ibe P rho g (none : Option Unit) t y x =
      nscale (rho2 * g2 / (rho * g))
        (slp_to_ibe P rho2 g2 (none : Option Unit) t y x) := by
  show nscale (-1 / (rho * g)) (nsub (P t y x) (nanmean0 P y x)) =
    nscale (rho2 * g2 / (rho * g))
      (nscale (-1 / (rho2 * g2)) (nsub (P t y x) (nanmean0 P y x)))
  cases hd : nsub (P t y x) (nanmean0 P y x) with
  | none => rw [nscale_none, nscale_none, nscale_none]
  | some d =>
    rw [nscale_some, nscale_some, nscale_some]
    congr 1
    have hrg : rho * g ≠ 0 := by positivity
    have hrg2 : rho2 * g2 ≠ 0 := by positivity
    field_simp
    ring

/-- Witness for `slp_to_ibe_scaling` at a concrete 1×1×1 input. -/
theorem slp_to_ibe_scaling_witness :
    slp_to_ibe (T := 1) (Y := 1) (X := 1) (fun _ _ _ => some 7)
        (1028 : ℚ) (980665 / 100000) (none : Option Unit) 0 0 0 =
      nscale ((1 : ℚ) * 2 / ((1028 : ℚ) * (980665 / 100000)))
        (slp_to_ibe (T := 1) (Y := 1) (X := 1) (fun _ _ _ => some 7)
          1 2 (none : Option Unit) 0 0 0) :=
  slp_to_ibe_scaling (fun _ _ _ => some 7) 1028 (980665 / 100000) 1 2
    (by norm_num) (by norm_num) (by norm_num) (by norm_num) 0 0 0

lemma filterMap_eq_map_of_some {β : Type} (l : List β) (f : β → Cell) (v : β → ℚ)
    (h : ∀ b ∈ l, f b = some (v b)) : l.filterMap f = l.map v := by
  induction l with
  | nil => rfl
  | cons a l ih =>
    rw [List.filterMap_cons, List.map_cons, h a (List.mem_cons_self a l),
      ih (fun b hb => h b (List.mem_cons_of_mem a hb))]

lemma sum_map_mul_sub {β : Type} (l : List β) (c m : ℚ) (v : β → ℚ) :
    (l.map (fun b => c * (v b - m))).sum = c * ((l.map v).sum - (l.length : ℚ) * m) := by
  induction l with
  | nil => simp
  | cons a l ih =>
    simp only [List.map_cons, List.sum_cons, ih, List.length_cons]
    push_cast
    ring

lemma sum_map_add_const {β : Type} (l : List β) (c : ℚ) (v : β → ℚ) :
    (l.map (fun b => v b + c)).sum = (l.map v).sum + (l.length : ℚ) * c := by
  induction l with
  | nil => simp
  | cons a l ih =>
    simp only [List.map_cons, List.sum_cons, ih, List.length_cons]
    push_cast
    ring

/-- Claim C7: on an input with no missing values (and at least one time
step), the temporal mean of every output column is exactly zero —
subtracting the per-column mean and scaling is mean-zero by construction. -/
theorem slp_to_ibe_output_mean_zero {T Y X : Nat} (P : Grid3 T Y X) (rho g : ℚ)
    (hrho : 0 < rho) (hg : 0 < g) (hT : 0 < T)
    (hdef : ∀ (t : Fin T) (y : Fin Y) (x : Fin X), P t y x ≠ none)
    (y : Fin Y) (x : Fin X) :
    nanmean0 (slp_to_ibe P rho g (none : Option Unit)) y x = some 0 := by
  have hv : ∀ t : Fin T, ∃ q, P t y x = some q := by
    intro t
    cases hq : P t y x with
    | none => exact absurd hq (hdef t y x)
    | some q => exact ⟨q, rfl⟩
  choose v hvv using hv
  have hTQ : (T : ℚ) ≠ 0 := Nat.cast_ne_zero.mpr (Nat.pos_iff_ne_zero.mp hT)
  have hcol : (List.finRange T).filterMap (fun s => P s y x) =
      (List.finRange T).map v :=
    filterMap_eq_map_of_some _ _ _ (fun s _ => hvv s)
  have hlen : ((List.finRange T).filterMap (fun s => P s y x)).length = T := by
    rw [hcol, List.length_map, List.length_finRange]
  set S : ℚ := ((List.finRange T).map v).sum with hS
  have hmean : nanmean0 P y x = some (S / T) := by
    rw [nanmean0_eq, if_neg (by rw [hlen]; exact Nat.pos_iff_ne_zero.mp hT)]
    rw [hcol, List.length_map, List.length_finRange]
  have hout : ∀ s : Fin T, slp_to_ibe P rho g (none : Option Unit) s y x =
      some ((-1 / (rho * g)) * (v s - S / T)) := by
    intro s
    show nscale (-1 / (rho * g)) (nsub (P s y x) (nanmean0 P y x)) = _
    rw [hvv s, hmean, nsub_some_some, nscale_some]
  rw [nanmean0_eq]
  have houtcol : (List.finRange T).filterMap
      (fun s => slp_to_ibe P rho g (none : Option Unit) s y x) =
      (List.finRange T).map (fun s => (-1 / (rho * g)) * (v s - S / T)) :=
    filterMap_eq_map_of_some _ _ _ (fun s _ => hout s)
  rw [houtcol]
  have hlen2 : ((List.finRange T).map
      (fun s => (-1 / (rho * g)) * (v s - S / T))).length = T := by
    rw [List.length_map, List.length_finRange]
  rw [if_neg (by rw [hlen2]; exact Nat.pos_iff_ne_zero.mp hT)]
  rw [sum_map_mul_sub, hlen2]
  rw [List.length_finRange]
  have : S - (T : ℚ) * (S / T) = 0 := by
    field_simp
  rw [← hS, this, mul_zero, zero_div]

/-- Witness for `slp_to_ibe_output_mean_zero` at a concrete 2×1×1 input. -/
theorem slp_to_ibe_output_mean_zero_witness :
    nanmean0 (slp_to_ibe (T := 2) (Y := 1) (X := 1)
        (fun t _ _ => if t.val = 0 then some 3 else some 5)
        (1028 : ℚ) (980665 / 100000) (none : Option Unit)) 0 0 = some 0 :=
  slp_to_ibe_output_mean_zero
    (fun t _ _ => if t.val = 0 then some 3 else some 5)
    1028 (980665 / 100000) (by norm_num) (by norm_num) (by norm_num)
    (by intro t y x; fin_cases t <;> simp) 0 0

/-- Claim C10: translation invariance.  Adding a constant `c` to every
entry of an input with no missing values leaves the output unchanged,
since the per-column temporal mean shifts by the same `c`. -/
theorem slp_to_ibe_translation_invariant {T Y X : Nat} (P : Grid3 T Y X)
    (rho g c : ℚ) (hrho : 0 < rho) (hg : 0 < g)
    (hdef : ∀ (t : Fin T) (y : Fin Y) (x : Fin X), P t y x ≠ none)
    (t : Fin T) (y : Fin Y) (x : Fin X) :
    slp_to_ibe (addScalar c P) rho g (none : Option Unit) t y x =
      slp_to_ibe P rho g (none : Option Unit) t y x := by
  have hT : 0 < T := t.pos
  have hv : ∀ s : Fin T, ∃ q, P s y x = some q := by
    intro s
    cases hq : P s y x with
    | none => exact absurd hq (hdef s y x)
    | some q => exact ⟨q, rfl⟩
  choose v hvv using hv
  have hTQ : (T : ℚ) ≠ 0 := Nat.cast_ne_zero.mpr (Nat.pos_iff_ne_zero.mp hT)
  have hvc : ∀ s : Fin T, addScalar c P s y x = some (v s + c) := by
    intro s
    unfold addScalar
    rw [hvv s]
    rfl
  have hcol : (List.finRange T).filterMap (fun s => P s y x) =
      (List.finRange T).map v :=
    filterMap_eq_map_of_some _ _ _ (fun s _ => hvv s)
  have hcolc : (List.finRange T).filterMap (fun s => addScalar c P s y x) =
      (List.finRange T).map (fun s => v s + c) :=
    filterMap_eq_map_of_some _ _ _ (fun s _ => hvc s)
  set S : ℚ := ((List.finRange T).map v).sum with hS
  have hTne : T ≠ 0 := Nat.pos_iff_ne_zero.mp hT
  have hmean : nanmean0 P y x = some (S / T) := by
    rw [nanmean0_eq, if_neg (by rw [hcol, List.length_map, List.length_finRange]; exact hTne)]
    rw [hcol, List.length_map, List.length_finRange]
  have hmeanc : nanmean0 (addScalar c P) y x = some ((S + T * c) / T) := by
    rw [nanmean0_eq, if_neg (by rw [hcolc, List.length_map, List.length_finRange]; exact hTne)]
    rw [hcolc, sum_map_add_const, List.length_map, List.length_finRange, ← hS]
  show nscale (-1 / (rho * g)) (nsub (addScalar c P t y x) (nanmean0 (addScalar c P) y x)) =
    nscale (-1 / (rho * g)) (nsub (P t y x) (nanmean0 P y x))
  rw [hvc t, hvv t, hmean, hmeanc, nsub_some_some, nsub_some_some, nscale_some, nscale_some]
  congr 1
  have : v t + c - (S + (T : ℚ) * c) / T = v t - S / T := by
    field_simp
    ring
  rw [this]

/-- Witness for `slp_to_ibe_translation_invariant` at a concrete 2×1×1
input shifted by 10. -/
theorem slp_to_ibe_translation_invariant_witness :
    slp_to_ibe (T := 2) (Y := 1) (X := 1)
        (addScalar 10 (fun t _ _ => if t.val = 0 then some 3 else some 5))
        (1028 : ℚ) (980665 / 100000) (none : Option Unit) 0 0 0 =
      slp_to_ibe (T := 2) (Y := 1) (X := 1)
        (fun t _ _ => if t.val = 0 then some 3 else some 5)
        (1028 : ℚ) (980665 / 100000) (none : Option Unit) 0 0 0 :=
  slp_to_ibe_translation_invariant
    (fun t _ _ => if t.val = 0 then some 3 else some 5)
    1028 (980665 / 100000) 10 (by norm_num) (by norm_num)
    (by intro t y x; fin_cases t <;> simp) 0 0 0


lemma exc_bind_ok {ε α β : Type} (x : α) (f : α → Except ε β) :
    (Except.ok x >>= f : Except ε β) = f x := rfl

lemma bcDim_self (a : Nat) : bcDim a a = some a := by simp [bcDim]

lemma bcDim_one_right (a : Nat) : bcDim a 1 = some a := by
  unfold bcDim
  by_cases h : a = 1 <;> simp [h]

lemma bcZip_append_one (u : List Nat) (a : Nat) :
    bcZip (u ++ [a]) (u ++ [1]) = some (u ++ [a]) := by
  induction u with
  | nil => simp [bcZip, bcDim_one_right]
  | cons x u ih => simp [bcZip, bcDim_self, ih]

lemma broadcastShapes_axis0 (a : Nat) (s : List Nat) :
    broadcastShapes (a :: s) (1 :: s) = some (a :: s) := by
  unfold broadcastShapes
  rw [List.reverse_cons, List.reverse_cons, bcZip_append_one]
  simp

lemma slp_to_ibe_nd_3d (A : NDArray) (rho g : ℚ) (T Y X : Nat)
    (hsh : A.shape = [T, Y, X]) (hrg : rho * g ≠ 0) :
    slp_to_ibe_nd A rho g (none : Option Unit) = Except.ok
      (scaleND (-1 / (rho * g))
        ⟨[T, Y, X], fun p =>
          nsub (bcRead A 3 p)
            (bcRead ⟨1 :: [Y, X], fun q =>
              nanmeanVals ((List.range T).map (fun i => A.data (i :: q.tail)))⟩ 3 p)⟩) := by
  have h1 : nanmean0_nd A = Except.ok
      (⟨[Y, X], fun p => nanmeanVals ((List.range T).map (fun i => A.data (i :: p)))⟩ : NDArray) := by
    unfold nanmean0_nd
    rw [hsh]
  have h3 : broadcastShapes A.shape (1 :: [Y, X]) = some [T, Y, X] := by
    rw [hsh]
    exact broadcastShapes_axis0 T [Y, X]
  unfold slp_to_ibe_nd
  rw [h1]
  simp only [exc_bind_ok, if_neg hrg, newaxisSliceSlice]
  rw [if_pos (show 2 ≤ ([Y, X] : List Nat).length by norm_num)]
  simp only [exc_bind_ok, subBroadcast, h3]
  rfl

theorem slp_to_ibe_nd_shape (A : NDArray) (rho g : ℚ) (T Y X : Nat)
    (hsh : A.shape = [T, Y, X]) (hT : 0 < T) (hrho : 0 < rho) (hg : 0 < g) :
    ∃ B : NDArray, slp_to_ibe_nd A rho g (none : Option Unit) = Except.ok B ∧
      B.shape = A.shape := by
  have hrg : rho * g ≠ 0 := by positivity
  exact ⟨_, slp_to_ibe_nd_3d A rho g T Y X hsh hrg, by simp [scaleND, hsh]⟩



lemma exc_bind_err {ε α β : Type} (e : ε) (f : α → Except ε β) :
    (Except.error e >>= f : Except ε β) = Except.error e := rfl

lemma exc_pure_eq_ok {ε α : Type} (x : α) : (pure x : Except ε α) = Except.ok x := rfl

lemma slp_to_ibe_nd_ok_of_shape (A : NDArray) (rho g : ℚ) (n : Nat) (s : List Nat)
    (hsh : A.shape = n :: s) (hs2 : 2 ≤ s.length) (hrg : rho * g ≠ 0) :
    isOkB (slp_to_ibe_nd A rho g (none : Option Unit)) = true := by
  have h1 : nanmean0_nd A = Except.ok
      (⟨s, fun p => nanmeanVals ((List.range n).map (fun i => A.data (i :: p)))⟩ : NDArray) := by
    unfold nanmean0_nd
    rw [hsh]
  have h3 : broadcastShapes A.shape (1 :: s) = some (n :: s) := by
    rw [hsh]
    exact broadcastShapes_axis0 n s
  unfold slp_to_ibe_nd
  rw [h1]
  simp only [exc_bind_ok, if_neg hrg, newaxisSliceSlice]
  rw [if_pos hs2]
  simp only [exc_bind_ok, subBroadcast, h3]
  rfl

/-- Witness for `slp_to_ibe_nd_shape` on a concrete 2×1×1 array. -/
theorem slp_to_ibe_nd_shape_witness :
    ∃ B : NDArray, slp_to_ibe_nd (⟨[2, 1, 1], fun _ => some 3⟩ : NDArray) 1028
        (980665 / 100000) (none : Option Unit) = Except.ok B ∧
      B.shape = (⟨[2, 1, 1], fun _ => some 3⟩ : NDArray).shape :=
  slp_to_ibe_nd_shape ⟨[2, 1, 1], fun _ => some 3⟩ 1028 (980665 / 100000) 2 1 1 rfl
    (by norm_num) (by norm_num) (by norm_num)

theorem slp_to_ibe_nd_dim_behaviour (A : NDArray) (rho g : ℚ)
    (hrho : 0 < rho) (hg : 0 < g) :
    (4 ≤ A.shape.length → isOkB (slp_to_ibe_nd A rho g (none : Option Unit)) = true) ∧
    (A.shape.length = 1 ∨ A.shape.length = 2 →
      isOkB (nanmean0_nd A) = true ∧
      isOkB (slp_to_ibe_nd A rho g (none : Option Unit)) = false) ∧
    (A.shape.length = 0 → isOkB (nanmean0_nd A) = false) := by
  have hrg : rho * g ≠ 0 := by positivity
  refine ⟨?_, ?_, ?_⟩
  · intro h4
    rcases hsh : A.shape with _ | ⟨a, _ | ⟨b, _ | ⟨c, _ | ⟨d, rest⟩⟩⟩⟩ <;>
      rw [hsh] at h4 <;> simp at h4
    exact slp_to_ibe_nd_ok_of_shape A rho g a (b :: c :: d :: rest) hsh
      (by simp) hrg
  · intro h12
    rcases hsh : A.shape with _ | ⟨a, _ | ⟨b, rest2⟩⟩
    · rw [hsh] at h12; simp at h12
    · -- 1-D
      have h1 : nanmean0_nd A = Except.ok
          (⟨[], fun p => nanmeanVals ((List.range a).map (fun i => A.data (i :: p)))⟩ : NDArray) := by
        unfold nanmean0_nd
        rw [hsh]
      constructor
      · rw [h1]; rfl
      · unfold slp_to_ibe_nd
        rw [h1]
        simp only [exc_bind_ok, if_neg hrg, newaxisSliceSlice]
        rw [if_neg (by norm_num)]
        rfl
    · -- length ≥ 2: must be exactly 2 given h12
      rw [hsh] at h12
      have hr2 : rest2 = [] := by
        rcases h12 with h | h <;> simp at h
        exact h
      subst hr2
      have h1 : nanmean0_nd A = Except.ok
          (⟨[b], fun p => nanmeanVals ((List.range a).map (fun i => A.data (i :: p)))⟩ : NDArray) := by
        unfold nanmean0_nd
        rw [hsh]
      constructor
      · rw [h1]; rfl
      · unfold slp_to_ibe_nd
        rw [h1]
        simp only [exc_bind_ok, if_neg hrg, newaxisSliceSlice]
        rw [if_neg (by norm_num)]
        rfl
  · intro h0
    rcases hsh : A.shape with _ | ⟨a, s⟩
    · unfold nanmean0_nd
      rw [hsh]
      rfl
    · rw [hsh] at h0; simp at h0

/-- Witness for `slp_to_ibe_nd_dim_behaviour` on a concrete 1-D array:
the conversion fails, although the temporal mean itself succeeded. -/
theorem slp_to_ibe_nd_dim_behaviour_witness :
    isOkB (slp_to_ibe_nd (⟨[3], fun _ => some 1⟩ : NDArray) 1028 (980665 / 100000)
      (none : Option Unit)) = false :=
  ((slp_to_ibe_nd_dim_behaviour ⟨[3], fun _ => some 1⟩ 1028 (980665 / 100000)
    (by norm_num) (by norm_num)).2.1 (Or.inl rfl)).2

theorem slp_to_ibe_nd_4d_ok :
    isOkB (slp_to_ibe_nd (⟨[1, 1, 1, 1], fun _ => some 0⟩ : NDArray)
      1028 (980665 / 100000) (none : Option Unit)) = true :=
  slp_to_ibe_nd_ok_of_shape ⟨[1, 1, 1, 1], fun _ => some 0⟩ 1028 (980665 / 100000)
    1 [1, 1, 1] rfl (by norm_num) (by norm_num)




lemma strReplaceGo_fuel (old new : List Char) (hold : old ≠ []) :
    ∀ (n : Nat) (s : List Char) (f1 f2 : Nat), s.length ≤ f1 → s.length ≤ f2 →
      s.length ≤ n → strReplaceGo old new f1 s = strReplaceGo old new f2 s := by
  intro n
  induction n with
  | zero =>
    intro s f1 f2 h1 h2 hn
    have hs : s = [] := List.eq_nil_of_length_eq_zero (Nat.le_zero.mp hn)
    subst hs
    cases f1 <;> cases f2 <;> rfl
  | succ n ih =>
    intro s f1 f2 h1 h2 hn
    cases s with
    | nil => cases f1 <;> cases f2 <;> rfl
    | cons c rest =>
      have holdlen : 1 ≤ old.length := List.length_pos.mpr hold
      cases f1 with
      | zero => exact absurd h1 (by simp)
      | succ f1 =>
        cases f2 with
        | zero => exact absurd h2 (by simp)
        | succ f2 =>
          simp only [strReplaceGo]
          by_cases hp : old.isPrefixOf (c :: rest) = true
          · rw [if_pos hp, if_pos hp]
            congr 1
            apply ih
            · rw [List.length_drop]
              simp only [List.length_cons] at h1 ⊢
              omega
            · rw [List.length_drop]
              simp only [List.length_cons] at h2 ⊢
              omega
            · rw [List.length_drop]
              simp only [List.length_cons] at hn ⊢
              omega
          · rw [if_neg hp, if_neg hp]
            congr 1
            apply ih
            · simp only [List.length_cons] at h1; omega
            · simp only [List.length_cons] at h2; omega
            · simp only [List.length_cons] at hn; omega


lemma strReplace_nil_eq (old new : List Char) (hold : old ≠ []) :
    strReplace [] old new = [] := by
  cases old with
  | nil => exact absurd rfl hold
  | cons o old2 => rfl

lemma strReplace_cons (old new : List Char) (hold : old ≠ []) (c : Char) (rest : List Char) :
    strReplace (c :: rest) old new =
      if old.isPrefixOf (c :: rest)
      then new ++ strReplace ((c :: rest).drop old.length) old new
      else c :: strReplace rest old new := by
  obtain ⟨o, old2, rfl⟩ : ∃ o old2, old = o :: old2 := by
    cases old with
    | nil => exact absurd rfl hold
    | cons o old2 => exact ⟨o, old2, rfl⟩
  show strReplaceGo (o :: old2) new (c :: rest).length (c :: rest) = _
  simp only [List.length_cons, strReplaceGo]
  by_cases hp : (o :: old2).isPrefixOf (c :: rest) = true
  · rw [if_pos hp, if_pos hp]
    congr 1
    show strReplaceGo (o :: old2) new rest.length ((c :: rest).drop (old2.length + 1)) =
      strReplace ((c :: rest).drop (old2.length + 1)) (o :: old2) new
    show strReplaceGo (o :: old2) new rest.length ((c :: rest).drop (old2.length + 1)) =
      strReplaceGo (o :: old2) new ((c :: rest).drop (old2.length + 1)).length
        ((c :: rest).drop (old2.length + 1))
    apply strReplaceGo_fuel (o :: old2) new (by simp) (rest.length + 1)
    · rw [List.length_drop]
      simp only [List.length_cons]
      omega
    · rw [List.length_drop]
    · rw [List.length_drop]
      simp only [List.length_cons]
      omega
  · rw [if_neg hp, if_neg hp]
    rfl

lemma strReplace_no_occurrence (old new : List Char) (hold : old ≠ []) :
    ∀ s : List Char, ¬ (old <:+: s) → strReplace s old new = s := by
  intro s
  induction s with
  | nil => intro h; exact strReplace_nil_eq old new hold
  | cons c rest ih =>
    intro h
    have hp : ¬ (old.isPrefixOf (c :: rest) = true) := fun hp =>
      h (List.isPrefixOf_iff_prefix.mp hp).isInfix
    rw [strReplace_cons old new hold, if_neg hp,
      ih (fun hi => h (List.infix_cons hi))]

lemma strReplace_append_self (old new t : List Char) (hold : old ≠ []) :
    strReplace (old ++ t) old new = new ++ strReplace t old new := by
  obtain ⟨o, old2, rfl⟩ : ∃ o old2, old = o :: old2 := by
    cases old with
    | nil => exact absurd rfl hold
    | cons o old2 => exact ⟨o, old2, rfl⟩
  rw [List.cons_append, strReplace_cons _ _ hold]
  rw [if_pos (List.isPrefixOf_iff_prefix.mpr ⟨t, by simp⟩)]
  have hdrop : (o :: (old2 ++ t)).drop (o :: old2).length = t := by
    rw [show (o :: (old2 ++ t)) = (o :: old2) ++ t from by simp, List.drop_left]
  rw [hdrop]

lemma strReplace_self (s new : List Char) (h : s ≠ []) : strReplace s s new = new := by
  have hx := strReplace_append_self s new [] h
  rw [List.append_nil] at hx
  rw [hx, strReplace_nil_eq _ _ h, List.append_nil]

lemma prefix_append_mono (u a b : List Char) (h : a <+: b) : u ++ a <+: u ++ b := by
  obtain ⟨w, hw⟩ := h
  exact ⟨w, by rw [List.append_assoc, hw]⟩

lemma strReplace_append_no_occurrence (old new v : List Char) (hold : old ≠ []) :
    ∀ u : List Char, ¬ (old <:+: u ++ v.take (old.length - 1)) →
      strReplace (u ++ v) old new = u ++ strReplace v old new := by
  intro u
  induction u with
  | nil => intro h; simp
  | cons c u2 ih =>
    intro h
    have hp : ¬ (old.isPrefixOf (c :: (u2 ++ v)) = true) := by
      intro hp
      apply h
      have hpre := List.isPrefixOf_iff_prefix.mp hp
      obtain ⟨m, hm⟩ : ∃ m, old.length = m + 1 := by
        cases hol : old.length with
        | zero => exact absurd (List.eq_nil_of_length_eq_zero hol) hold
        | succ m => exact ⟨m, rfl⟩
      have heq : old = (c :: (u2 ++ v)).take old.length :=
        List.prefix_iff_eq_take.mp hpre
      rw [hm] at heq
      rw [List.take_succ_cons] at heq
      -- old = c :: take m (u2 ++ v)
      have hsub : (u2 ++ v).take m <+: u2 ++ v.take m := by
        rw [List.take_append_eq_append_take]
        by_cases hmu : m ≤ u2.length
        · have h0 : m - u2.length = 0 := by omega
          rw [h0, List.take_zero, List.append_nil]
          exact (List.take_prefix m u2).trans (List.prefix_append u2 _)
        · have hu2 : u2.take m = u2 := List.take_of_length_le (by omega)
          rw [hu2]
          apply prefix_append_mono
          have : v.take (m - u2.length) = (v.take m).take (m - u2.length) := by
            rw [List.take_take]
            congr 1
            omega
          rw [this]
          exact List.take_prefix _ _
      have : old <+: c :: (u2 ++ v.take m) := by
        rw [heq]
        obtain ⟨w, hw⟩ := hsub
        exact ⟨w, by rw [List.cons_append, hw]⟩
      have hfin : old <:+: (c :: u2) ++ v.take m := by
        rw [List.cons_append]
        exact this.isInfix
      rw [hm]
      simpa using hfin
    rw [List.cons_append, strReplace_cons old new hold, if_neg hp]
    rw [ih (fun hi => h (by rw [List.cons_append]; exact List.infix_cons hi))]
    rfl

/-- Claim C8, corrected: `main` derives the output name by replacing every
occurrence of `SLP_` and of `.nc` anywhere in the input name (Python
`str.replace` is global).  When `SLP_` occurs nowhere in the remainder and
`.nc` occurs nowhere but as the trailing extension (also not overlapping
the final `.n`), this coincides with the claimed prefix-and-extension
replacement: `SLP_<rest>.nc` maps to `IBE_<rest>.h5`. -/
theorem outfileOf_prefix_extension (rest : List Char)
    (h1 : ¬ ("SLP_".toList <:+: rest ++ ".nc".toList))
    (h2 : ¬ (".nc".toList <:+: "IBE_".toList ++ rest ++ ['.', 'n'])) :
    outfileOf ("SLP_".toList ++ rest ++ ".nc".toList) =
      "IBE_".toList ++ rest ++ ".h5".toList := by
  unfold outfileOf
  rw [List.append_assoc, strReplace_append_self _ _ _ (by simp),
    strReplace_no_occurrence _ _ (by simp) _ h1]
  rw [← List.append_assoc]
  rw [strReplace_append_no_occurrence _ _ _ (by simp) ("IBE_".toList ++ rest)
    (by
      intro hi
      apply h2
      simpa using hi)]
  rw [strReplace_self _ _ (by simp), List.append_assoc]

/-- Witness for `outfileOf_prefix_extension` on the repository's own
example filename stem. -/
theorem outfileOf_prefix_extension_witness :
    outfileOf ("SLP_".toList ++ "antarctica".toList ++ ".nc".toList) =
      "IBE_".toList ++ "antarctica".toList ++ ".h5".toList :=
  outfileOf_prefix_extension "antarctica".toList (by decide) (by decide)

/-- Counterexample to claim C8 as stated: on `SLP_SLP_x.nc` the code
replaces both occurrences of `SLP_`, giving `IBE_IBE_x.h5`, while the
claimed prefix-token-and-extension rule gives `IBE_SLP_x.h5`. -/
theorem outfileOf_not_prefix_rule :
    outfileOf "SLP_SLP_x.nc".toList = "IBE_IBE_x.h5".toList ∧
    specOutfileOf "SLP_SLP_x.nc".toList = "IBE_SLP_x.h5".toList ∧
    outfileOf "SLP_SLP_x.nc".toList ≠ specOutfileOf "SLP_SLP_x.nc".toList := by
  refine ⟨by decide, by decide, by decide⟩




/-- Claim C9: on every run of `main` that completes, the coordinate arrays
written to the output equal, element for element, those read from the
input — no transformation is applied to them. -/
theorem main_coords_roundtrip (ds : SLPDataset)
    (h : isOkB (mainModel ds) = true) :
    (mainModel ds).toOption.map IBEProduct.lon = some ds.lon ∧
    (mainModel ds).toOption.map IBEProduct.lat = some ds.lat ∧
    (mainModel ds).toOption.map IBEProduct.time = some ds.time := by
  cases hc : slp_to_ibe_nd ds.msl rhoDefault gDefault (none : Option Unit) with
  | error e =>
    unfold mainModel at h
    rw [hc, exc_bind_err] at h
    exact absurd h (by simp [isOkB])
  | ok B =>
    unfold mainModel
    rw [hc, exc_bind_ok, exc_pure_eq_ok]
    exact ⟨rfl, rfl, rfl⟩

/-- Witness for `main_coords_roundtrip` on a concrete dataset with a 1×1×1
pressure field. -/
theorem main_coords_roundtrip_witness :
    (mainModel ⟨"SLP_a.nc".toList, [1], [2], [3],
        ⟨[1, 1, 1], fun _ => some 5⟩⟩).toOption.map IBEProduct.lon = some [1] ∧
    (mainModel ⟨"SLP_a.nc".toList, [1], [2], [3],
        ⟨[1, 1, 1], fun _ => some 5⟩⟩).toOption.map IBEProduct.lat = some [2] ∧
    (mainModel ⟨"SLP_a.nc".toList, [1], [2], [3],
        ⟨[1, 1, 1], fun _ => some 5⟩⟩).toOption.map IBEProduct.time = some [3] :=
  main_coords_roundtrip ⟨"SLP_a.nc".toList, [1], [2], [3], ⟨[1, 1, 1], fun _ => some 5⟩⟩
    (by
      have hB := slp_to_ibe_nd_3d ⟨[1, 1, 1], fun _ => some 5⟩ rhoDefault gDefault
        1 1 1 rfl (by norm_num [rhoDefault, gDefault])
      unfold mainModel
      rw [hB, exc_bind_ok]
      rfl)

end Slp2ibe
